import Mathlib

/-! Verification of the path/specifier rewriting engine of tsc-multi:
    the worker's path policy and virtual-file-system adapter (worker.ts)
    and the declaration import transformer (rewriteDtsImport.ts).
    Paths and specifier texts are modelled as lists of characters. -/

namespace TscMulti

/-- File paths and module specifier texts, modelled as lists of characters. -/
abbrev Path := List Char

/-- The constant JS_EXT = ".js". -/
def JS_EXT : Path := ".js".toList

/-- The constant JSON_EXT = ".json". -/
def JSON_EXT : Path := ".json".toList

/-- The ".cjs" extension tested by updateModuleSpecifier. -/
def CJS_EXT : Path := ".cjs".toList

/-- The constant MAP_EXT = ".map". -/
def MAP_EXT : Path := ".map".toList

/-- The constant JS_MAP_EXT = JS_EXT ++ MAP_EXT = ".js.map". -/
def JS_MAP_EXT : Path := JS_EXT ++ MAP_EXT

/-- The constant DTS_EXT = ".d.ts". -/
def DTS_EXT : Path := ".d.ts".toList

/-- The constant DTS_MAP_EXT = DTS_EXT ++ MAP_EXT = ".d.ts.map". -/
def DTS_MAP_EXT : Path := DTS_EXT ++ MAP_EXT

/-- Drop trailing '/' characters; Node's extname ignores trailing separators. -/
def dropTrailingSeps (p : Path) : Path :=
  (p.reverse.dropWhile (fun c => c == '/')).reverse

/-- The last '/'-separated component of a path. -/
def lastComponent (p : Path) : Path :=
  (p.reverse.takeWhile (fun c => c != '/')).reverse

/-- The suffix of a component starting at its last '.', when the component has
    a dot anywhere.  Helper for the model of Node's path.extname. -/
def extAfterLastDot : Path → Option Path
  | [] => none
  | c :: rest =>
    match extAfterLastDot rest with
    | some e => some e
    | none => if c = '.' then some (c :: rest) else none

/-- Model of Node's path.extname (external host library, modelled from Node's
    documented algorithm): the suffix of the last path component from its last
    '.', except that a dot at the very start of the component does not begin
    an extension (extname of ".index" is empty) and the component ".." has no
    extension. -/
def extname (p : Path) : Path :=
  match lastComponent (dropTrailingSeps p) with
  | [] => []
  | c :: rest =>
    if c :: rest = "..".toList then []
    else
      match extAfterLastDot rest with
      | some e => e
      | none => []

/-- isRelativePath from rewriteDtsImport.ts: the text starts with "./" or
    with "../". -/
def isRelativePath (p : Path) : Bool :=
  decide ("./".toList <+: p) || decide ("../".toList <+: p)

/-- Modelled from the spec: trimSuffix from src/utils is not among the
    provided sources; per the spec it strips the given trailing suffix when
    present and otherwise returns the input unchanged. -/
def trimSuffix (p s : Path) : Path :=
  if s <:+ p then p.take (p.length - s.length) else p

/-- Options of the rewrite transformers, specialised to one containing source
    file: extname and dtsExtName as configured by the worker, isDir
    abstracting sys.directoryExists of the text resolved against the
    containing file's directory, and resolveJsonModule from the
    transformation context's compiler options. -/
structure RewriteImportTransformerOptions where
  extname : Path
  dtsExtName : Path
  isDir : Path → Bool
  resolveJsonModule : Bool

/-- updateModuleSpecifier from rewriteDtsImport.ts, at the level of specifier
    texts: isStringLiteral abstracts the ts.isStringLiteral test on the node,
    text is the literal's text, and the returned expression is represented by
    its text. -/
def updateModuleSpecifier (o : RewriteImportTransformerOptions)
    (isStringLiteral : Bool) (text : Path) : Path :=
  if isStringLiteral = false ∨ isRelativePath text = false then text
  else if extname text = CJS_EXT then text
  else if o.isDir text = true then text ++ "/index".toList ++ o.extname
  else if extname text = JSON_EXT ∧ o.resolveJsonModule = true then text
  else (if extname text = JS_EXT then trimSuffix text JS_EXT else text) ++ o.extname

/-- The heuristic rewrite applied by the declaration transformer's visitor to
    a string literal in type position (rewriteDtsImport.ts lines 158-184):
    the literal is skipped unless its text is exactly ".." or a relative
    path; a JSON import with resolveJsonModule is left unchanged; a directory
    gains "/index" plus the configured extension; otherwise the extension is
    replaced or appended. -/
def heuristicRewrite (o : RewriteImportTransformerOptions) (text : Path) : Path :=
  if text ≠ "..".toList ∧ isRelativePath text = false then text
  else if extname text = JSON_EXT ∧ o.resolveJsonModule = true then text
  else if o.isDir text = true then text ++ "/index".toList ++ o.extname
  else (if extname text = JS_EXT then trimSuffix text JS_EXT else text) ++ o.extname

/-- The recent-node bookkeeping of the declaration transformer's visitor
    (rewriteDtsImport.ts lines 67-71): the current node is pushed at the
    front of the list, which is kept at three entries at most.  Nodes are
    represented by their syntax kind. -/
def pushRecent (kind : Nat) (recent : List Nat) : List Nat :=
  (kind :: recent).take 3

/-- The action of the declaration transformer's visitor on a string-literal
    node (rewriteDtsImport.ts lines 118-186): kind is the node's syntax kind,
    recent the recent-node list before this visit, and isStringLiteral the
    ts.isStringLiteral test.  A string literal matches none of the
    import/export/call shapes, so only the heuristic block can fire: it does
    exactly when, after pushing the node, the window holds three nodes whose
    second and third kinds are 200 (SyntaxKind.MappedType) and 204
    (SyntaxKind.TemplateLiteralTypeSpan). -/
def visitorOnStringLiteral (o : RewriteImportTransformerOptions)
    (recent : List Nat) (kind : Nat) (isStringLiteral : Bool) (text : Path) : Path :=
  let r := pushRecent kind recent
  if r.length = 3 ∧ isStringLiteral = true ∧ r.get? 1 = some 200 ∧ r.get? 2 = some 204 then
    heuristicRewrite o text
  else text

/-- The worker's per-target extension configuration (WorkerOptions.extname and
    WorkerOptions.dtsExtName).  The empty list models an unset (undefined or
    empty, hence falsy) extension. -/
structure WorkerData where
  extname : Path
  dtsExtName : Path

/-- getJSPath from worker.ts: with an extension configured, replace a trailing
    ".js" by it. -/
def getJSPath (d : WorkerData) (path : Path) : Path :=
  if d.extname = [] then path else trimSuffix path JS_EXT ++ d.extname

/-- getDtsPath from worker.ts: with a declaration extension configured,
    replace a trailing ".d.ts" by it. -/
def getDtsPath (d : WorkerData) (path : Path) : Path :=
  if d.dtsExtName = [] then path else trimSuffix path DTS_EXT ++ d.dtsExtName

/-- getJSMapPath from worker.ts: with an extension configured, replace a
    trailing ".js.map" by the extension followed by ".map". -/
def getJSMapPath (d : WorkerData) (path : Path) : Path :=
  if d.extname = [] then path else trimSuffix path JS_MAP_EXT ++ d.extname ++ MAP_EXT

/-- getDtsMapPath from worker.ts: with a declaration extension configured,
    replace a trailing ".d.ts.map" by it followed by ".map". -/
def getDtsMapPath (d : WorkerData) (path : Path) : Path :=
  if d.dtsExtName = [] then path else trimSuffix path DTS_MAP_EXT ++ d.dtsExtName ++ MAP_EXT

/-- rewritePath from worker.ts: dispatch on the path's suffix; the two
    declaration branches are only reached when ignoreDts is false. -/
def rewritePath (d : WorkerData) (path : Path) (ignoreDts : Bool) : Path :=
  if JS_EXT <:+ path then getJSPath d path
  else if JS_MAP_EXT <:+ path then getJSMapPath d path
  else if ignoreDts = false ∧ DTS_EXT <:+ path then getDtsPath d path
  else if ignoreDts = false ∧ DTS_MAP_EXT <:+ path then getDtsMapPath d path
  else path

/-- The underlying host system as seen by the adapter of createSystem: file
    existence and file reading (none models an undefined or null read
    result). -/
structure SysModel where
  fileExists : Path → Bool
  readFile : Path → Option Path

/-- getReadPaths from createSystem in worker.ts: the rewritten path with
    ignoreDts set, plus the original path as a second candidate when the path
    ends in ".js". -/
def getReadPaths (d : WorkerData) (path : Path) : List Path :=
  [rewritePath d path true] ++ (if JS_EXT <:+ path then [path] else [])

/-- The adapter's fileExists from createSystem in worker.ts: fold over the
    candidate paths, or-ing the underlying existence checks. -/
def adapterFileExists (d : WorkerData) (sys : SysModel) (inputPath : Path) : Bool :=
  (getReadPaths d inputPath).foldl (fun result path => result || sys.fileExists path) false

/-- The adapter's readFile from createSystem in worker.ts: fold over the
    candidate paths, keeping the first non-nullish read result, with a final
    fallback to the no-value result. -/
def adapterReadFile (d : WorkerData) (sys : SysModel) (inputPath : Path) : Option Path :=
  (getReadPaths d inputPath).foldl
    (fun result path =>
      match result with
      | some v => some v
      | none => sys.readFile path)
    none

/-- The sourceMappingURL marker matched by rewriteSourceMappingURL. -/
def SMU_MARKER : Path := "//# sourceMappingURL=".toList

/-- rewriteSourceMappingURL from worker.ts: a global regex replace in which
    every occurrence of the marker followed by at least one character other
    than a line terminator has that following run of characters (the captured
    path) rewritten through rewritePath. -/
def rewriteSourceMappingURL (d : WorkerData) : Path → Path
  | [] => []
  | c :: rest =>
    if SMU_MARKER <+: (c :: rest) then
      let after := (c :: rest).drop SMU_MARKER.length
      let cap := after.takeWhile (fun ch => ch != '\n' && ch != '\r')
      if cap = [] then c :: rewriteSourceMappingURL d rest
      else SMU_MARKER ++ rewritePath d cap false ++
        rewriteSourceMappingURL d (after.drop cap.length)
    else c :: rewriteSourceMappingURL d rest
termination_by p => p.length
decreasing_by
· simp only [List.length_cons]
  omega
· have hm : 0 < SMU_MARKER.length := by decide
  simp only [List.length_drop, List.length_cons] at *
  omega
· simp only [List.length_cons]
  omega

/-- A JSON value as needed for source maps: a string, or any other value kept
    opaque through its serialized text (non-string fields of a map are never
    inspected by the worker). -/
inductive JVal where
  | str (s : Path)
  | other (raw : Path)
deriving DecidableEq

/-- A parsed JSON object: its fields in order.  JSON.parse yields objects
    with pairwise distinct keys. -/
abbrev Json := List (Path × JVal)

/-- The "file" key of a source map object. -/
def fileField : Path := "file".toList

/-- JavaScript property assignment on a parsed JSON object: replace the value
    at the key when present, append the field otherwise. -/
def setField : Json → Path → JVal → Json
  | [], k, v => [(k, v)]
  | (a, b) :: t, k, v => if a = k then (k, v) :: t else (a, b) :: setField t k v

/-- rewriteSourceMap from worker.ts on the parsed object: rewrite the "file"
    field through rewritePath and re-serialize.  none models a payload
    outside the model (no "file" string field), on which the real code would
    fail while reading json.file. -/
def rewriteSourceMap (d : WorkerData) (j : Json) : Option Json :=
  match j.lookup fileField with
  | some (JVal.str f) => some (setField j fileField (JVal.str (rewritePath d f false)))
  | _ => none

/-- Content handed to the adapter's writeFile: raw text, or the JSON-parsed
    view of a source-map payload. -/
inductive FileData where
  | raw (s : Path)
  | jsonMap (j : Json)
deriving DecidableEq

/-- The adapter's writeFile from createSystem in worker.ts: returns the pair
    (path, content) passed to the underlying system's writeFile.  The script
    and declaration branch applies rewriteSourceMappingURL to raw text; the
    map branch parses the content as JSON and patches it through
    rewriteSourceMap.  none marks combinations outside the model (a parsed
    view in the text branch, raw text in the JSON branch) and genuine JSON
    parse failures, which are fatal for the write. -/
def adapterWriteFile (d : WorkerData) (path : Path) (data : FileData) :
    Option (Path × FileData) :=
  let newPath := rewritePath d path false
  let newData : Option FileData :=
    if JS_EXT <:+ path ∨ DTS_EXT <:+ path then
      match data with
      | FileData.raw s => some (FileData.raw (rewriteSourceMappingURL d s))
      | FileData.jsonMap _ => none
    else if JS_MAP_EXT <:+ path ∨ DTS_MAP_EXT <:+ path then
      match data with
      | FileData.raw _ => none
      | FileData.jsonMap j => (rewriteSourceMap d j).map FileData.jsonMap
    else some data
  newData.map (fun nd => (newPath, nd))

/-- One project as seen by transpileProject in worker.ts: the parsed config's
    file names (none when getParsedCommandLineOfConfigFile yields nothing),
    the adapter-level existence check, and the diagnostics that
    ts.transpileModule reports for each input file. -/
structure TranspileEnv where
  config : Option (List Path)
  fileExists : Path → Bool
  transpileDiags : Path → List Nat

/-- transpileProject from worker.ts, projected to the diagnostics it reports:
    without a parsed config nothing is reported; otherwise every file that
    exists and is not a declaration file is transpiled and all its
    diagnostics are handed to the reporter. -/
def transpileProjectModel (env : TranspileEnv) : List Nat :=
  match env.config with
  | none => []
  | some names =>
    (names.filter (fun p => env.fileExists p && !(decide (DTS_EXT <:+ p)))).flatMap
      env.transpileDiags

/-- The worker options consulted by run in worker.ts. -/
structure RunData where
  transpileOnly : Bool
  clean : Bool

/-- The solution builder's result codes, opaque to the worker. -/
structure BuilderModel where
  buildCode : Int
  cleanCode : Int

/-- run from worker.ts, paired with the diagnostics reported while running:
    in transpile-only mode every project is transpiled and 0 is returned;
    otherwise the builder's clean or build result is returned. -/
def runModel (rd : RunData) (envs : List TranspileEnv) (b : BuilderModel) :
    Int × List Nat :=
  if rd.transpileOnly = true then (0, envs.flatMap transpileProjectModel)
  else if rd.clean = true then (b.cleanCode, [])
  else (b.buildCode, [])

/-- The specifier update rules as worded by the spec for claim C1: identical
    cascade, except that rule 5 strips a trailing ".js" suffix whenever it is
    present, regardless of the specifier's extension. -/
def updateSpecifierClaimC1 (o : RewriteImportTransformerOptions)
    (isStringLiteral : Bool) (text : Path) : Path :=
  if isStringLiteral = false ∨ isRelativePath text = false then text
  else if extname text = CJS_EXT then text
  else if o.isDir text = true then text ++ "/index".toList ++ o.extname
  else if extname text = JSON_EXT ∧ o.resolveJsonModule = true then text
  else trimSuffix text JS_EXT ++ o.extname

/-- The specifier update rules as amended for claim C1: not a string literal
    or not relative, unchanged; extension ".cjs", unchanged; a directory,
    rewritten to text/index plus the script extension; extension ".json"
    under resolveJsonModule, unchanged; otherwise the trailing ".js" is
    stripped exactly when the specifier's extension is ".js", and the script
    extension is appended. -/
def updateSpecifierAmendedC1 (o : RewriteImportTransformerOptions)
    (isStringLiteral : Bool) (text : Path) : Path :=
  if isStringLiteral = false ∨ isRelativePath text = false then text
  else if extname text = CJS_EXT then text
  else if o.isDir text = true then text ++ "/index".toList ++ o.extname
  else if extname text = JSON_EXT ∧ o.resolveJsonModule = true then text
  else (if extname text = JS_EXT then trimSuffix text JS_EXT else text) ++ o.extname

/-- The declaration rewrite as worded by claim C2: the four shape-based rules
    of updateModuleSpecifier with the configured declaration extension
    (dtsExtName) as the appended or substituted extension. -/
def updateSpecifierDtsClaimC2 (o : RewriteImportTransformerOptions)
    (isStringLiteral : Bool) (text : Path) : Path :=
  if isStringLiteral = false ∨ isRelativePath text = false then text
  else if extname text = CJS_EXT then text
  else if o.isDir text = true then text ++ "/index".toList ++ o.dtsExtName
  else if extname text = JSON_EXT ∧ o.resolveJsonModule = true then text
  else (if extname text = JS_EXT then trimSuffix text JS_EXT else text) ++ o.dtsExtName

/-- A path ends in none of the four role suffixes, so rewritePath passes it
    through unchanged. -/
abbrev noRoleSuffix (q : Path) : Prop :=
  ¬(JS_EXT <:+ q) ∧ ¬(JS_MAP_EXT <:+ q) ∧ ¬(DTS_EXT <:+ q) ∧ ¬(DTS_MAP_EXT <:+ q)

/-- Fixture: transformer options with extension ".mjs", declaration extension
    ".d.mts", no directories, resolveJsonModule off. -/
def oNoDir : RewriteImportTransformerOptions :=
  ⟨".mjs".toList, ".d.mts".toList, fun _ => false, false⟩

/-- Fixture: like oNoDir but with resolveJsonModule on. -/
def oNoDirJson : RewriteImportTransformerOptions :=
  ⟨".mjs".toList, ".d.mts".toList, fun _ => false, true⟩

/-- Fixture: transformer options with extension ".mjs" where exactly "./foo"
    is a directory. -/
def oFooDir : RewriteImportTransformerOptions :=
  ⟨".mjs".toList, ".d.mts".toList, fun p => p == "./foo".toList, false⟩

/-- Fixture: transformer options with extension ".js" where exactly "./foo"
    is a directory. -/
def oFooDirJs : RewriteImportTransformerOptions :=
  ⟨JS_EXT, ".d.mts".toList, fun p => p == "./foo".toList, false⟩

/-- Fixture: worker configuration with script extension ".mjs" and
    declaration extension ".d.mts". -/
def cfgMjs : WorkerData := ⟨".mjs".toList, ".d.mts".toList⟩

/-- Fixture: worker configuration with the pathological script extension
    ".map" and no declaration extension. -/
def cfgMap : WorkerData := ⟨".map".toList, []⟩

/-- Fixture: a parsed source-map object with a "file" string field and one
    opaque field. -/
def mapJson : Json :=
  [(fileField, JVal.str ("a.js".toList)), ("version".toList, JVal.other ("3".toList))]

/-- Fixture: a transpile project with one existing input file producing one
    diagnostic. -/
def envA : TranspileEnv :=
  ⟨some ["a.ts".toList], fun _ => true, fun _ => [7]⟩

/-- Two suffixes of one list are comparable, so a suffix that is pairwise
    incompatible with a known suffix of the list is excluded. -/
theorem suffix_incomp {p s₁ s₂ : Path} (h : s₁ <:+ p) (h₁ : ¬s₂ <:+ s₁)
    (h₂ : ¬s₁ <:+ s₂) : ¬s₂ <:+ p := fun hc =>
  (List.suffix_or_suffix_of_suffix hc h).elim h₁ h₂

/-- trimSuffix removes a suffix that was just appended. -/
theorem trimSuffix_append (t s : Path) : trimSuffix (t ++ s) s = t := by
  have hl : (t ++ s).length - s.length = t.length := by
    simp [List.length_append]
  unfold trimSuffix
  rw [if_pos (List.suffix_append t s), hl, List.take_left]

/-- C1, counterexample: on the specifier "./.js" (relative, not a directory,
    and with empty extension under Node's extname because the basename is a
    dotfile) updateModuleSpecifier appends the configured extension without
    stripping the trailing ".js", yielding "./.js.mjs", while the claim's
    rule 5 ("a trailing .js suffix (if present) is stripped") predicts
    "./.mjs". -/
theorem c1_counterexample :
    updateModuleSpecifier oNoDir true ("./.js".toList) ≠
      updateSpecifierClaimC1 oNoDir true ("./.js".toList) := by decide

/-- C1 (amended): updateModuleSpecifier applies its rules in this order: not
    a string literal or not relative, unchanged; extension ".cjs", unchanged;
    a directory, rewritten to text/index plus the script extension;
    extension ".json" with resolveJsonModule, unchanged; otherwise the
    trailing ".js" is stripped exactly when the specifier's extension is
    ".js" (so a basename of exactly ".js" is not stripped), and the
    configured script extension is appended. -/
theorem c1_rule_order (o : RewriteImportTransformerOptions) (lit : Bool) (t : Path) :
    updateModuleSpecifier o lit t = updateSpecifierAmendedC1 o lit t := rfl

/-- C2, counterexample: with script extension ".mjs" and declaration
    extension ".d.mts", the declaration transformer rewrites "./foo" to
    "./foo.mjs" (the script extension), not to "./foo.d.mts" as the claim's
    use of the declaration extension predicts. -/
theorem c2_counterexample :
    updateModuleSpecifier oNoDir true ("./foo".toList) ≠
      updateSpecifierDtsClaimC2 oNoDir true ("./foo".toList) := by decide

/-- C2 (amended): the declaration transformer's specifier rewrite ignores the
    configured declaration extension entirely — its result is unchanged under
    any dtsExtName — and every relative, non-exempt specifier it rewrites has
    the configured script extension appended. -/
theorem c2_uses_script_extension (o : RewriteImportTransformerOptions) (dts t : Path)
    (h1 : isRelativePath t = true) (h2 : extname t ≠ CJS_EXT)
    (h3 : ¬(extname t = JSON_EXT ∧ o.resolveJsonModule = true)) :
    updateModuleSpecifier { o with dtsExtName := dts } true t =
      updateModuleSpecifier o true t
    ∧ o.extname <:+ updateModuleSpecifier o true t := by
  refine ⟨rfl, ?_⟩
  unfold updateModuleSpecifier
  rw [if_neg (by simp [h1]), if_neg h2]
  by_cases hd : o.isDir t = true
  · rw [if_pos hd]
    exact List.suffix_append _ _
  · rw [if_neg hd, if_neg h3]
    exact List.suffix_append _ _

/-- C2, witness: the amended statement at the specifier "./foo" under the
    fixture options. -/
theorem c2_witness :
    isRelativePath ("./foo".toList) = true ∧
    (updateModuleSpecifier { oNoDir with dtsExtName := ".d.cts".toList } true
        ("./foo".toList) = updateModuleSpecifier oNoDir true ("./foo".toList)
      ∧ oNoDir.extname <:+ updateModuleSpecifier oNoDir true ("./foo".toList)) :=
  ⟨by decide, c2_uses_script_extension oNoDir (".d.cts".toList) ("./foo".toList)
    (by decide) (by decide) (by decide)⟩

/-- C3: when the two most recently recorded predecessor kinds are 200
    (mapped-type construct) and 204 (template-literal type span), the visitor
    hands a string literal to the heuristic directory/JSON/extension rewrite;
    the literal ".." is not recognised by the general relative-path check,
    yet the heuristic still rewrites it by the directory/extension rules. -/
theorem c3_heuristic_fires (o : RewriteImportTransformerOptions) (k : Nat)
    (rest : List Nat) (t : Path) :
    visitorOnStringLiteral o (200 :: 204 :: rest) k true t = heuristicRewrite o t
    ∧ isRelativePath ("..".toList) = false
    ∧ heuristicRewrite o ("..".toList) =
        (if o.isDir ("..".toList) = true then "..".toList ++ "/index".toList ++ o.extname
         else "..".toList ++ o.extname) := by
  refine ⟨?_, by decide, ?_⟩
  · simp [visitorOnStringLiteral, pushRecent]
  · unfold heuristicRewrite
    rw [if_neg (by simp), if_neg (fun hc => absurd hc.1 (by decide))]
    by_cases hd : o.isDir ("..".toList) = true
    · rw [if_pos hd, if_pos hd]
    · rw [if_neg hd, if_neg hd, if_neg (by decide : ¬(extname ("..".toList) = JS_EXT))]

/-- C4, counterexample: the heuristic type-position pass does not apply the
    ".cjs" exemption: it rewrites "./foo.cjs" to "./foo.cjs.mjs", while
    updateModuleSpecifier leaves the same specifier unchanged. -/
theorem c4_counterexample :
    heuristicRewrite oNoDirJson ("./foo.cjs".toList) ≠
      updateModuleSpecifier oNoDirJson true ("./foo.cjs".toList) := by decide

/-- C4 (amended): the heuristic pass applies the JSON exemption (a matched
    ".json" specifier with resolveJsonModule enabled is unchanged), but not
    the ".cjs" exemption: a matched relative ".cjs" specifier that is not a
    directory has the script extension appended, even though
    updateModuleSpecifier leaves it unchanged. -/
theorem c4_heuristic_exemptions (o : RewriteImportTransformerOptions) (t u : Path)
    (h1 : isRelativePath t = true) (h2 : extname t = CJS_EXT) (h3 : o.isDir t = false)
    (h4 : isRelativePath u = true) (h5 : extname u = JSON_EXT)
    (h6 : o.resolveJsonModule = true) :
    heuristicRewrite o t = t ++ o.extname
    ∧ updateModuleSpecifier o true t = t
    ∧ heuristicRewrite o u = u := by
  refine ⟨?_, ?_, ?_⟩
  · unfold heuristicRewrite
    rw [if_neg (by simp [h1]),
      if_neg (by rw [h2]; exact fun hc => absurd hc.1 (by decide)),
      if_neg (by simp [h3]), if_neg (by rw [h2]; decide)]
  · unfold updateModuleSpecifier
    rw [if_neg (by simp [h1]), if_pos h2]
  · unfold heuristicRewrite
    rw [if_neg (by simp [h4]), if_pos ⟨h5, h6⟩]

/-- C4, witness: the amended statement at the specifiers "./a.cjs" and
    "./d.json" under the fixture options with resolveJsonModule on. -/
theorem c4_witness :
    extname ("./a.cjs".toList) = CJS_EXT ∧
    (heuristicRewrite oNoDirJson ("./a.cjs".toList) = "./a.cjs".toList ++ oNoDirJson.extname
      ∧ updateModuleSpecifier oNoDirJson true ("./a.cjs".toList) = "./a.cjs".toList
      ∧ heuristicRewrite oNoDirJson ("./d.json".toList) = "./d.json".toList) :=
  ⟨by decide, c4_heuristic_exemptions oNoDirJson ("./a.cjs".toList) ("./d.json".toList)
    (by decide) (by decide) (by decide) (by decide) (by decide) (by decide)⟩

/-- Folding disjunction over a list computes the any-predicate. -/
theorem foldl_or_eq (f : Path → Bool) (b : Bool) (l : List Path) :
    l.foldl (fun r q => r || f q) b = (b || l.any f) := by
  induction l generalizing b with
  | nil => simp
  | cons q rest ih => simp [List.foldl, ih, Bool.or_assoc]

/-- Folding a first-success accumulator over a list computes findSome?. -/
theorem foldl_firstSome_eq (g : Path → Option Path) (r : Option Path) (l : List Path) :
    l.foldl (fun r q => match r with | some v => some v | none => g q) r =
      (match r with | some v => some v | none => l.findSome? g) := by
  induction l generalizing r with
  | nil => cases r <;> simp
  | cons q rest ih =>
    cases r with
    | some v => rw [List.foldl_cons, ih]
    | none =>
      rw [List.foldl_cons, ih]
      cases hgq : g q <;> simp [List.findSome?_cons, hgq]

/-- C5: the adapter's read operations use the candidate list made of the
    rewritten path (with declaration rewriting disabled) and, exactly when
    the path ends in ".js", the original path; fileExists holds iff some
    candidate exists, and readFile returns the first successfully read
    candidate in list order, or the no-value result. -/
theorem c5_read_candidates (d : WorkerData) (sys : SysModel) (p : Path) :
    getReadPaths d p =
      (if JS_EXT <:+ p then [rewritePath d p true, p] else [rewritePath d p true])
    ∧ (adapterFileExists d sys p = true ↔ ∃ q ∈ getReadPaths d p, sys.fileExists q = true)
    ∧ adapterReadFile d sys p = (getReadPaths d p).findSome? sys.readFile := by
  refine ⟨?_, ?_, ?_⟩
  · by_cases h : JS_EXT <:+ p <;> simp [getReadPaths, h]
  · rw [adapterFileExists, foldl_or_eq]
    simp [List.any_eq_true]
  · rw [adapterReadFile, foldl_firstSome_eq]

/-- C6, counterexample: with the pathological configured extension ".map",
    the path "a.js.js" rewrites to "a.js.map", which rewrites again to
    "a.map.map" — the rewrite is not idempotent for every configured
    extension. -/
theorem c6_counterexample :
    JS_EXT <:+ ("a.js.js".toList)
    ∧ rewritePath cfgMap (rewritePath cfgMap ("a.js.js".toList) false) false ≠
        rewritePath cfgMap ("a.js.js".toList) false := by decide

/-- C6 (amended): for a path ending in ".js", the rewrite equals the path
    when no script extension is configured and otherwise ends in the
    configured extension; it is idempotent when the extension is unset or is
    ".js" itself, and also whenever the once-rewritten path no longer ends in
    any of the four role suffixes (as with conventional extensions such as
    ".mjs"); a pathological extension can re-enter a role and break
    idempotence. -/
theorem c6_rewrite_js (cfg : WorkerData) (t : Path) :
    (cfg.extname = [] → rewritePath cfg (t ++ JS_EXT) false = t ++ JS_EXT)
    ∧ (cfg.extname ≠ [] → cfg.extname <:+ rewritePath cfg (t ++ JS_EXT) false)
    ∧ (cfg.extname = [] ∨ cfg.extname = JS_EXT →
        rewritePath cfg (rewritePath cfg (t ++ JS_EXT) false) false =
          rewritePath cfg (t ++ JS_EXT) false)
    ∧ (noRoleSuffix (rewritePath cfg (t ++ JS_EXT) false) →
        rewritePath cfg (rewritePath cfg (t ++ JS_EXT) false) false =
          rewritePath cfg (t ++ JS_EXT) false) := by
  have hjs : JS_EXT <:+ t ++ JS_EXT := List.suffix_append t JS_EXT
  have hrw : rewritePath cfg (t ++ JS_EXT) false = getJSPath cfg (t ++ JS_EXT) := by
    rw [rewritePath, if_pos hjs]
  refine ⟨?_, ?_, ?_, ?_⟩
  · intro h
    rw [hrw, getJSPath, if_pos h]
  · intro h
    rw [hrw, getJSPath, if_neg h]
    exact List.suffix_append _ _
  · intro h
    have hid : rewritePath cfg (t ++ JS_EXT) false = t ++ JS_EXT := by
      rcases h with h | h
      · rw [hrw, getJSPath, if_pos h]
      · rw [hrw, getJSPath, if_neg (by rw [h]; exact fun hc => List.noConfusion hc),
          trimSuffix_append, h]
    rw [hid]
    exact hid
  · intro h
    obtain ⟨n1, n2, n3, n4⟩ := h
    conv => lhs; rw [rewritePath]
    rw [if_neg n1, if_neg n2, if_neg (fun hc => n3 hc.2), if_neg (fun hc => n4 hc.2)]

/-- C6, witness: the amended statement for the path "./a.js" under the
    fixture ".mjs" configuration, whose rewritten path "./a.mjs" ends in no
    role suffix. -/
theorem c6_witness :
    noRoleSuffix (rewritePath cfgMjs ("./a".toList ++ JS_EXT) false) ∧
    ((cfgMjs.extname = [] → rewritePath cfgMjs ("./a".toList ++ JS_EXT) false =
        "./a".toList ++ JS_EXT)
      ∧ (cfgMjs.extname ≠ [] →
          cfgMjs.extname <:+ rewritePath cfgMjs ("./a".toList ++ JS_EXT) false)
      ∧ (cfgMjs.extname = [] ∨ cfgMjs.extname = JS_EXT →
          rewritePath cfgMjs (rewritePath cfgMjs ("./a".toList ++ JS_EXT) false) false =
            rewritePath cfgMjs ("./a".toList ++ JS_EXT) false)
      ∧ (noRoleSuffix (rewritePath cfgMjs ("./a".toList ++ JS_EXT) false) →
          rewritePath cfgMjs (rewritePath cfgMjs ("./a".toList ++ JS_EXT) false) false =
            rewritePath cfgMjs ("./a".toList ++ JS_EXT) false)) :=
  ⟨by decide, c6_rewrite_js cfgMjs ("./a".toList)⟩

/-- C7: with declaration rewriting disabled (ignoreDts true), every path
    ending in ".d.ts" or in ".d.ts.map" is returned unchanged by rewritePath,
    for every configuration. -/
theorem c7_ignore_declarations (cfg : WorkerData) (t : Path) :
    rewritePath cfg (t ++ DTS_EXT) true = t ++ DTS_EXT
    ∧ rewritePath cfg (t ++ DTS_MAP_EXT) true = t ++ DTS_MAP_EXT := by
  constructor
  · have h : DTS_EXT <:+ t ++ DTS_EXT := List.suffix_append _ _
    rw [rewritePath, if_neg (suffix_incomp h (by decide) (by decide)),
      if_neg (suffix_incomp h (by decide) (by decide)),
      if_neg (fun hc => Bool.noConfusion hc.1), if_neg (fun hc => Bool.noConfusion hc.1)]
  · have h : DTS_MAP_EXT <:+ t ++ DTS_MAP_EXT := List.suffix_append _ _
    rw [rewritePath, if_neg (suffix_incomp h (by decide) (by decide)),
      if_neg (suffix_incomp h (by decide) (by decide)),
      if_neg (fun hc => Bool.noConfusion hc.1), if_neg (fun hc => Bool.noConfusion hc.1)]

/-- C8, counterexample: with extension ".mjs" and "./foo" a directory, the
    rewriter maps "./foo" to "./foo/index.mjs", but applying it again yields
    "./foo/index.mjs.mjs" — already-rewritten output is not a fixed point. -/
theorem c8_counterexample :
    updateModuleSpecifier oFooDir true ("./foo".toList) = "./foo/index.mjs".toList
    ∧ updateModuleSpecifier oFooDir true ("./foo/index.mjs".toList) ≠
        "./foo/index.mjs".toList := by decide

/-- C8 (amended): a specifier "./foo" denoting a directory rewrites to
    "./foo/index" plus the configured script extension, for every such
    extension; but re-running the rewriter on the rewritten output is not in
    general a no-op.  It is one when the rewritten specifier again falls
    under a restoring or exempt rule: configured extension ".js" (the
    trailing ".js" is stripped and re-appended), configured extension ".cjs"
    (the rewritten specifier is exempt), or configured extension ".json"
    under resolveJsonModule when the rewritten specifier is not a directory
    (exempt).  When instead the rewritten specifier is not a directory and
    its extension is neither ".cjs" nor JSON-exempt nor ".js", the rewriter
    appends the configured extension again, and for a nonempty extension the
    result is a strictly different specifier — not a fixed point. -/
theorem c8_directory_rewrite (o : RewriteImportTransformerOptions)
    (h1 : o.isDir ("./foo".toList) = true) :
    updateModuleSpecifier o true ("./foo".toList) =
      "./foo".toList ++ "/index".toList ++ o.extname
    ∧ (o.extname = JS_EXT → o.isDir ("./foo/index.js".toList) = false →
        updateModuleSpecifier o true ("./foo/index.js".toList) =
          "./foo/index.js".toList)
    ∧ (o.extname = CJS_EXT →
        updateModuleSpecifier o true ("./foo/index.cjs".toList) =
          "./foo/index.cjs".toList)
    ∧ (o.extname = JSON_EXT → o.resolveJsonModule = true →
        o.isDir ("./foo/index.json".toList) = false →
        updateModuleSpecifier o true ("./foo/index.json".toList) =
          "./foo/index.json".toList)
    ∧ (extname ("./foo/index".toList ++ o.extname) ≠ CJS_EXT →
        o.isDir ("./foo/index".toList ++ o.extname) = false →
        ¬(extname ("./foo/index".toList ++ o.extname) = JSON_EXT ∧
            o.resolveJsonModule = true) →
        extname ("./foo/index".toList ++ o.extname) ≠ JS_EXT →
        updateModuleSpecifier o true ("./foo/index".toList ++ o.extname) =
          ("./foo/index".toList ++ o.extname) ++ o.extname)
    ∧ (o.extname ≠ [] →
        ("./foo/index".toList ++ o.extname) ++ o.extname ≠
          "./foo/index".toList ++ o.extname) := by
  refine ⟨?_, ?_, ?_, ?_, ?_, ?_⟩
  · rw [updateModuleSpecifier, if_neg (by decide), if_neg (by decide), if_pos h1]
  · intro he hd
    rw [updateModuleSpecifier, if_neg (by decide), if_neg (by decide),
      if_neg (by simp only [Bool.not_eq_true]; exact hd),
      if_neg (fun hc => absurd hc.1 (by decide)),
      if_pos (by decide), he]
    decide
  · intro he
    rw [updateModuleSpecifier, if_neg (by decide), if_pos (by decide)]
  · intro he hr hd
    rw [updateModuleSpecifier, if_neg (by decide), if_neg (by decide),
      if_neg (by simp only [Bool.not_eq_true]; exact hd),
      if_pos ⟨by decide, hr⟩]
  · intro hcjs hdir hjson hjs
    have hrel : isRelativePath ("./foo/index".toList ++ o.extname) = true := by
      have hp : "./".toList <+: ("./foo/index".toList ++ o.extname) :=
        ⟨"foo/index".toList ++ o.extname, rfl⟩
      unfold isRelativePath
      rw [decide_eq_true hp, Bool.true_or]
    rw [updateModuleSpecifier,
      if_neg (fun hc => hc.elim (fun h => Bool.noConfusion h)
        (fun h => Bool.noConfusion (hrel.symm.trans h))),
      if_neg hcjs,
      if_neg (by simp only [Bool.not_eq_true]; exact hdir), if_neg hjson,
      if_neg hjs]
  · intro hne hc
    have h := congrArg List.length hc
    simp only [List.length_append] at h
    exact hne (List.eq_nil_of_length_eq_zero (by omega))

/-- C8, witness: the amended statement under the fixture where "./foo" is a
    directory and the configured extension is ".mjs", which exercises the
    directory rewrite and the extension-re-appending case. -/
theorem c8_witness :
    oFooDir.isDir ("./foo".toList) = true ∧
    (updateModuleSpecifier oFooDir true ("./foo".toList) =
        "./foo".toList ++ "/index".toList ++ oFooDir.extname
      ∧ (oFooDir.extname = JS_EXT → oFooDir.isDir ("./foo/index.js".toList) = false →
          updateModuleSpecifier oFooDir true ("./foo/index.js".toList) =
            "./foo/index.js".toList)
      ∧ (oFooDir.extname = CJS_EXT →
          updateModuleSpecifier oFooDir true ("./foo/index.cjs".toList) =
            "./foo/index.cjs".toList)
      ∧ (oFooDir.extname = JSON_EXT → oFooDir.resolveJsonModule = true →
          oFooDir.isDir ("./foo/index.json".toList) = false →
          updateModuleSpecifier oFooDir true ("./foo/index.json".toList) =
            "./foo/index.json".toList)
      ∧ (extname ("./foo/index".toList ++ oFooDir.extname) ≠ CJS_EXT →
          oFooDir.isDir ("./foo/index".toList ++ oFooDir.extname) = false →
          ¬(extname ("./foo/index".toList ++ oFooDir.extname) = JSON_EXT ∧
              oFooDir.resolveJsonModule = true) →
          extname ("./foo/index".toList ++ oFooDir.extname) ≠ JS_EXT →
          updateModuleSpecifier oFooDir true ("./foo/index".toList ++ oFooDir.extname) =
            ("./foo/index".toList ++ oFooDir.extname) ++ oFooDir.extname)
      ∧ (oFooDir.extname ≠ [] →
          ("./foo/index".toList ++ oFooDir.extname) ++ oFooDir.extname ≠
            "./foo/index".toList ++ oFooDir.extname)) :=
  ⟨by decide, c8_directory_rewrite oFooDir (by decide)⟩

/-- Looking up the key just set yields the new value. -/
theorem lookup_setField_self (j : Json) (k : Path) (v : JVal) :
    (setField j k v).lookup k = some v := by
  induction j with
  | nil => simp [setField, List.lookup]
  | cons kv rest ih =>
    obtain ⟨a, b⟩ := kv
    by_cases h : a = k
    · subst h
      simp [setField, List.lookup]
    · have hb : (k == a) = false := beq_eq_false_iff_ne.mpr (Ne.symm h)
      simp [setField, h, List.lookup, hb, ih]

/-- Setting one key leaves the lookup of every other key unchanged. -/
theorem lookup_setField_ne (j : Json) (k k' : Path) (v : JVal) (h : k' ≠ k) :
    (setField j k v).lookup k' = j.lookup k' := by
  induction j with
  | nil =>
    simp [setField, List.lookup, beq_eq_false_iff_ne.mpr h]
  | cons kv rest ih =>
    obtain ⟨a, b⟩ := kv
    by_cases ha : a = k
    · subst ha
      simp [setField, List.lookup, beq_eq_false_iff_ne.mpr h]
    · by_cases ha' : k' = a
      · subst ha'
        simp [setField, ha, List.lookup]
      · have hb : (k' == a) = false := beq_eq_false_iff_ne.mpr ha'
        simp [setField, ha, List.lookup, hb, ih]

/-- C9: writing a map file (a path ending in ".js.map" or ".d.ts.map")
    parses the payload, replaces exactly the "file" field by its rewritten
    path, and writes the patched object at the rewritten path; the lookup of
    every other key is unchanged. -/
theorem c9_map_write (d : WorkerData) (t f : Path) (j : Json)
    (hf : j.lookup fileField = some (JVal.str f)) :
    adapterWriteFile d (t ++ JS_MAP_EXT) (FileData.jsonMap j) =
      some (rewritePath d (t ++ JS_MAP_EXT) false,
        FileData.jsonMap (setField j fileField (JVal.str (rewritePath d f false))))
    ∧ adapterWriteFile d (t ++ DTS_MAP_EXT) (FileData.jsonMap j) =
      some (rewritePath d (t ++ DTS_MAP_EXT) false,
        FileData.jsonMap (setField j fileField (JVal.str (rewritePath d f false))))
    ∧ (setField j fileField (JVal.str (rewritePath d f false))).lookup fileField =
        some (JVal.str (rewritePath d f false))
    ∧ ∀ k, k ≠ fileField →
        (setField j fileField (JVal.str (rewritePath d f false))).lookup k =
          j.lookup k := by
  refine ⟨?_, ?_, lookup_setField_self j fileField _, fun k hk =>
    lookup_setField_ne j fileField k _ hk⟩
  · have h : JS_MAP_EXT <:+ t ++ JS_MAP_EXT := List.suffix_append _ _
    rw [adapterWriteFile]
    rw [if_neg (fun hc => hc.elim (suffix_incomp h (by decide) (by decide))
        (suffix_incomp h (by decide) (by decide))),
      if_pos (Or.inl h)]
    simp [rewriteSourceMap, hf]
  · have h : DTS_MAP_EXT <:+ t ++ DTS_MAP_EXT := List.suffix_append _ _
    rw [adapterWriteFile]
    rw [if_neg (fun hc => hc.elim (suffix_incomp h (by decide) (by decide))
        (suffix_incomp h (by decide) (by decide))),
      if_pos (Or.inr h)]
    simp [rewriteSourceMap, hf]

/-- C9, witness: the map-write statement for the fixture payload written at
    "a.js.map" and "a.d.ts.map" under the ".mjs"/".d.mts" configuration. -/
theorem c9_witness :
    mapJson.lookup fileField = some (JVal.str ("a.js".toList)) ∧
    (adapterWriteFile cfgMjs ("a".toList ++ JS_MAP_EXT) (FileData.jsonMap mapJson) =
      some (rewritePath cfgMjs ("a".toList ++ JS_MAP_EXT) false,
        FileData.jsonMap (setField mapJson fileField
          (JVal.str (rewritePath cfgMjs ("a.js".toList) false))))
    ∧ adapterWriteFile cfgMjs ("a".toList ++ DTS_MAP_EXT) (FileData.jsonMap mapJson) =
      some (rewritePath cfgMjs ("a".toList ++ DTS_MAP_EXT) false,
        FileData.jsonMap (setField mapJson fileField
          (JVal.str (rewritePath cfgMjs ("a.js".toList) false))))
    ∧ (setField mapJson fileField
        (JVal.str (rewritePath cfgMjs ("a.js".toList) false))).lookup fileField =
          some (JVal.str (rewritePath cfgMjs ("a.js".toList) false))
    ∧ ∀ k, k ≠ fileField →
        (setField mapJson fileField
          (JVal.str (rewritePath cfgMjs ("a.js".toList) false))).lookup k =
            mapJson.lookup k) :=
  ⟨by decide, c9_map_write cfgMjs ("a".toList) ("a.js".toList) mapJson (by decide)⟩

/-- C10: in transpile-only mode run returns 0 — whatever diagnostics
    transpilation produces and whatever the builder would have returned —
    while every diagnostic of every transpiled file (existing, not a
    declaration file, in a project whose config parsed) is reported. -/
theorem c10_transpile_returns_zero (cl : Bool) (envs : List TranspileEnv)
    (b : BuilderModel) :
    (runModel ⟨true, cl⟩ envs b).1 = 0
    ∧ (runModel ⟨true, cl⟩ envs b).2 = envs.flatMap transpileProjectModel
    ∧ ∀ env names p dg, env ∈ envs → env.config = some names → p ∈ names →
        env.fileExists p = true → ¬(DTS_EXT <:+ p) → dg ∈ env.transpileDiags p →
        dg ∈ (runModel ⟨true, cl⟩ envs b).2 := by
  refine ⟨rfl, rfl, ?_⟩
  intro env names p dg henv hcfg hp hex hdts hdg
  show dg ∈ envs.flatMap transpileProjectModel
  refine List.mem_flatMap.mpr ⟨env, henv, ?_⟩
  rw [transpileProjectModel, hcfg]
  exact List.mem_flatMap.mpr ⟨p, List.mem_filter.mpr ⟨hp, by simp [hex, hdts]⟩, hdg⟩

/-- C10, witness: the statement for one project with one existing input file
    producing one diagnostic. -/
theorem c10_witness :
    envA.config = some ["a.ts".toList] ∧
    ((runModel ⟨true, false⟩ [envA] ⟨1, 2⟩).1 = 0
      ∧ (runModel ⟨true, false⟩ [envA] ⟨1, 2⟩).2 = [envA].flatMap transpileProjectModel
      ∧ ∀ env names p dg, env ∈ [envA] → env.config = some names → p ∈ names →
          env.fileExists p = true → ¬(DTS_EXT <:+ p) → dg ∈ env.transpileDiags p →
          dg ∈ (runModel ⟨true, false⟩ [envA] ⟨1, 2⟩).2) :=
  ⟨by decide, c10_transpile_returns_zero false [envA] ⟨1, 2⟩⟩

end TscMulti
